import Mathlib

/-!
# Verification of the OpenClaw gateway core

Shallow embedding of the gateway HTTP server (noVNC asset serving,
machine-scoped authorization, webhook handler with auth throttling),
the framebuffer WebSocket-to-TCP proxy, and the display-process
supervisor, together with proofs of the specified safety and
functional properties.

All definitions are translated from the TypeScript source
(`http-server` module, `gateway/vnc-proxy.ts`,
`gateway/vnc-process-manager.ts`).  Strings are modelled via their
character lists so that every operation is structurally recursive and
kernel-computable.
-/

namespace OpenClaw
/-! ## String helpers (kernel-computable models of the JS string ops) -/

/-- The NUL character, `"\0"` in JavaScript. -/
def charNul : Char := Char.ofNat 0

/-- JS `s.includes(c)` for a single character. -/
def strContainsChar (s : String) (c : Char) : Bool :=
  s.data.contains c

/-- JS `s.startsWith(p)`, `String.prototype.startsWith`. -/
def strStarts (s p : String) : Bool :=
  p.data.isPrefixOf s.data

/-- JS `s.endsWith(p)`. -/
def strEnds (s p : String) : Bool :=
  p.data.reverse.isPrefixOf s.data.reverse

/-! ## `path.posix.normalize` and `path.join` (Node.js semantics)

Node's `normalizeString` walks the `/`-separated segments, dropping
empty and `.` segments, resolving `..` against the accumulated result
(popping a previous segment, or — for relative paths — keeping a
leading run of `..`), then re-attaches the leading `/` for absolute
paths and a trailing `/` when the input had one.  `path.join` filters
empty parts, joins the rest with `/` and normalizes; with no nonempty
part it returns `"."`. -/

/-- Split a character list on `'/'`, JS `s.split("/")` semantics
(the empty string yields one empty segment). -/
def splitSlash : List Char → List Char → List (List Char)
  | [], cur => [cur.reverse]
  | c :: cs, cur =>
    if c = '/' then cur.reverse :: splitSlash cs []
    else splitSlash cs (c :: cur)

/-- One step of Node's `normalizeString` segment resolution.
`acc` holds the already-resolved segments in reverse order. -/
def normSegStep (allowAbove : Bool) (acc : List (List Char)) (seg : List Char) :
    List (List Char) :=
  if seg = [] ∨ seg = ['.'] then acc
  else if seg = ['.', '.'] then
    match acc with
    | [] => if allowAbove then [['.', '.']] else []
    | s :: rest =>
      if s = ['.', '.'] then (if allowAbove then ['.', '.'] :: s :: rest else s :: rest)
      else rest
  else seg :: acc

/-- Join resolved segments with `'/'`. -/
def joinSegs : List (List Char) → List Char
  | [] => []
  | [s] => s
  | s :: s2 :: rest => s ++ '/' :: joinSegs (s2 :: rest)

/-- Node.js `path.posix.normalize`. -/
def posixNormalize (p : String) : String :=
  if p = "" then "."
  else
    let isAbs := strStarts p "/"
    let trailing := strEnds p "/"
    let segs := splitSlash p.data []
    let body := joinSegs ((segs.foldl (normSegStep !isAbs) []).reverse)
    if body = [] then
      (if isAbs then "/" else if trailing then "./" else ".")
    else
      let withTrail := if trailing then body ++ ['/'] else body
      String.mk (if isAbs then '/' :: withTrail else withTrail)

/-- Node.js `path.posix.join a b`: filter empty parts, join with `/`,
normalize; `"."` when both parts are empty. -/
def pathJoin (a b : String) : String :=
  if a = "" then (if b = "" then "." else posixNormalize b)
  else if b = "" then posixNormalize a
  else posixNormalize (String.mk (a.data ++ '/' :: b.data))

/-! ## noVNC asset path safety (`isSafeNoVncAssetPath`, asset serving) -/

/-- Translation of `isSafeNoVncAssetPath` from the gateway HTTP server:
reject empty paths, NUL bytes, and paths whose POSIX normalization
starts with `../` or equals `..`. -/
def isSafeNoVncAssetPath (rel : String) : Bool :=
  if rel = "" ∨ strContainsChar rel charNul then false
  else
    let normalized := posixNormalize rel
    !(strStarts normalized "../" || normalized == "..")

/-- The asset-serving decision of `handleRequest` for a noVNC asset
request, abstracted over the filesystem: `fileOk p` models
`fs.existsSync(p) && fs.statSync(p).isFile()`.  The file is served
(`true`) only when the safety check, the root string-prefix check and
the filesystem check all pass, in that order; otherwise the handler
responds 404. -/
def serveNoVncAsset (root rel : String) (fileOk : String → Bool) : Bool :=
  if !isSafeNoVncAssetPath rel then false
  else
    let filePath := pathJoin root rel
    if !strStarts filePath root then false
    else fileOk filePath

/-! ## Machine-scoped authorization (`authorizeMachineScopedRequest`)

The helpers `isLocalDirectRequest`, `getBearerToken`,
`authorizeGatewayConnect`, `resolveGatewayClientIp` and
`isPrivateOrLoopbackAddress` live in neighbouring modules; the
embedding abstracts them as input data, keeping exactly the
composition of `authorizeMachineScopedRequest` itself. -/

/-- Result of the gateway authorizer, `GatewayAuthResult`. -/
structure GAuthResult where
  ok : Bool
  reason : Option String := none
  rateLimited : Bool := false
  retryAfterMs : Option Int := none
  deriving Repr, DecidableEq

/-- One entry of the authenticated-client registry (`GatewayWsClient`):
the resolved client IP, absent or possibly empty. -/
structure WsClientEntry where
  clientIp : Option String
  deriving Repr, DecidableEq

/-- Translation of `hasAuthorizedWsClientForIp`: a registry entry matches when its
`clientIp` is truthy (present and nonempty) and equals the requester
IP. -/
def hasAuthorizedWsClientForIp (clients : List WsClientEntry) (ip : String) : Bool :=
  clients.any fun c =>
    match c.clientIp with
    | some s => !(s == "") && s == ip
    | none => false

/-- Inputs of one `authorizeMachineScopedRequest` call, with the
external helpers abstracted: `localDirect` is
`isLocalDirectRequest(req, trustedProxies)`; `bearerToken` is
`getBearerToken(req)`; `tokenAuth` is the result
`authorizeGatewayConnect` would return for that token (consulted only
when the token is truthy); `resolvedIp` is
`resolveGatewayClientIp(...)` over X-Forwarded-For / X-Real-IP under
the trusted-proxy filter (empty string = falsy); `privLoop` is
`isPrivateOrLoopbackAddress`. -/
structure MachineAuthIn where
  localDirect : Bool
  bearerToken : Option String
  tokenAuth : GAuthResult
  resolvedIp : String
  privLoop : String → Bool
  clients : List WsClientEntry

/-- The request presented a truthy bearer token. -/
def bearerTried (i : MachineAuthIn) : Bool :=
  match i.bearerToken with
  | some t => !(t == "")
  | none => false

/-- A valid bearer credential was accepted: a truthy token was
presented and `authorizeGatewayConnect` returned ok for it. -/
def bearerAccepted (i : MachineAuthIn) : Bool :=
  bearerTried i && i.tokenAuth.ok

/-- Translation of `authorizeMachineScopedRequest`, branch for branch. -/
def authorizeMachineScoped (i : MachineAuthIn) : GAuthResult :=
  if i.localDirect then { ok := true }
  else if bearerTried i && i.tokenAuth.ok then i.tokenAuth
  else
    let lastAuthFailure : Option GAuthResult :=
      if bearerTried i then some i.tokenAuth else none
    if i.resolvedIp == "" then
      lastAuthFailure.getD { ok := false, reason := some "unauthorized" }
    else if !(i.privLoop i.resolvedIp) then
      lastAuthFailure.getD { ok := false, reason := some "unauthorized" }
    else if hasAuthorizedWsClientForIp i.clients i.resolvedIp then { ok := true }
    else lastAuthFailure.getD { ok := false, reason := some "unauthorized" }

/-! ## Hook authentication failure table (`recordHookAuthFailure`)

`Map<string, HookAuthFailure>` is modelled as an insertion-ordered
association list (head = oldest entry), which is exactly the
iteration order of a JS `Map`. -/

/-- One `HookAuthFailure` entry: failure count and window start. -/
structure HookAuthFailure where
  count : Nat
  windowStartedAtMs : Int
  deriving Repr, DecidableEq

/-- Constant `HOOK_AUTH_FAILURE_LIMIT`. -/
def hookAuthFailureLimit : Nat := 20

/-- Constant `HOOK_AUTH_FAILURE_WINDOW_MS`. -/
def hookAuthFailureWindowMs : Int := 60000

/-- Constant `HOOK_AUTH_FAILURE_TRACK_MAX`. -/
def hookAuthFailureTrackMax : Nat := 2048

/-- The failure table in JS `Map` iteration (insertion) order. -/
abbrev FailTable := List (String × HookAuthFailure)

/-- JS `map.has(k)`. -/
def tableHas (t : FailTable) (k : String) : Bool :=
  t.any fun e => e.1 == k

/-- JS `map.get(k)`. -/
def tableGet (t : FailTable) (k : String) : Option HookAuthFailure :=
  (t.find? fun e => e.1 == k).map (·.2)

/-- JS `map.delete(k)` (keys are unique in a JS `Map`, so deleting every
occurrence coincides with deleting the one entry). -/
def tableDelete (t : FailTable) (k : String) : FailTable :=
  t.filter fun e => !(e.1 == k)

/-- The pruning loop of `recordHookAuthFailure`: drop every entry
whose window has elapsed (`now - windowStartedAtMs >= WINDOW_MS`). -/
def pruneExpired (t : FailTable) (now : Int) : FailTable :=
  t.filter fun e => now - e.2.windowStartedAtMs < hookAuthFailureWindowMs

/-- Return value of `recordHookAuthFailure`. -/
structure ThrottleResult where
  throttled : Bool
  retryAfterSeconds : Option Int := none
  deriving Repr, DecidableEq

/-- The capacity-eviction step at the head of `recordHookAuthFailure`:
when the key is new and the table is at capacity, prune expired
entries, then — if still at capacity — drop the oldest half
(`Math.floor(size / 2)` keys in iteration order). -/
def evictForInsert (t : FailTable) (clientKey : String) (nowMs : Int) : FailTable :=
  if tableHas t clientKey = false ∧ hookAuthFailureTrackMax ≤ t.length then
    (if hookAuthFailureTrackMax ≤ (pruneExpired t nowMs).length then
      (pruneExpired t nowMs).drop ((pruneExpired t nowMs).length / 2)
    else pruneExpired t nowMs)
  else t

/-- The updated entry: reset to count 1 when the key is absent or its
window has elapsed, bump the count keeping the window start
otherwise. -/
def nextEntry (current : Option HookAuthFailure) (nowMs : Int) : HookAuthFailure :=
  match current with
  | none => { count := 1, windowStartedAtMs := nowMs }
  | some c =>
    if hookAuthFailureWindowMs ≤ nowMs - c.windowStartedAtMs then
      { count := 1, windowStartedAtMs := nowMs }
    else { count := c.count + 1, windowStartedAtMs := c.windowStartedAtMs }

/-- The throttle verdict: throttled once the count exceeds the limit;
`Math.ceil(retryAfterMs / 1000)` on the positive integer
`retryAfterMs` is `(retryAfterMs + 999) / 1000`. -/
def throttleFor (next : HookAuthFailure) (nowMs : Int) : ThrottleResult :=
  if next.count ≤ hookAuthFailureLimit then { throttled := false }
  else
    { throttled := true,
      retryAfterSeconds :=
        some ((max 1 (next.windowStartedAtMs + hookAuthFailureWindowMs - nowMs) + 999) / 1000) }

/-- Translation of `recordHookAuthFailure`, step for step: evict when a
new key would exceed capacity, compute the updated entry,
delete-before-set to refresh the `Map` insertion order, and report
the throttle verdict. -/
def recordHookAuthFailure (t : FailTable) (clientKey : String) (nowMs : Int) :
    FailTable × ThrottleResult :=
  (tableDelete (evictForInsert t clientKey nowMs) clientKey ++
      [(clientKey, nextEntry (tableGet (evictForInsert t clientKey nowMs) clientKey) nowMs)],
   throttleFor (nextEntry (tableGet (evictForInsert t clientKey nowMs) clientKey) nowMs) nowMs)

/-- Translation of `clearHookAuthFailure`. -/
def clearHookAuthFailure (t : FailTable) (clientKey : String) : FailTable :=
  tableDelete t clientKey

/-! ## Hook client key (`resolveHookClientKey`) -/

/-- JS `String.prototype.trim` whitespace: WhiteSpace and
LineTerminator code points. -/
def jsWhitespaceChar (c : Char) : Bool :=
  decide (c.toNat = 0x9 ∨ c.toNat = 0xA ∨ c.toNat = 0xB ∨ c.toNat = 0xC ∨
    c.toNat = 0xD ∨ c.toNat = 0x20 ∨ c.toNat = 0xA0 ∨ c.toNat = 0x1680 ∨
    (0x2000 ≤ c.toNat ∧ c.toNat ≤ 0x200A) ∨ c.toNat = 0x2028 ∨
    c.toNat = 0x2029 ∨ c.toNat = 0x202F ∨ c.toNat = 0x205F ∨
    c.toNat = 0x3000 ∨ c.toNat = 0xFEFF)

/-- JS `s.trim()`. -/
def jsTrim (s : String) : String :=
  String.mk (((s.data.dropWhile jsWhitespaceChar).reverse.dropWhile jsWhitespaceChar).reverse)

/-- Translation of `resolveHookClientKey`:
`req.socket?.remoteAddress?.trim() || "unknown"`. -/
def resolveHookClientKey (remoteAddr : Option String) : String :=
  match remoteAddr with
  | none => "unknown"
  | some s => if jsTrim s = "" then "unknown" else jsTrim s

/-! ## The hooks request handler (`createHooksRequestHandler`)

The handler is modelled as a pure function from an abstract request —
the outcomes of the external helpers (`extractHookToken` +
`safeEqualSecret`, `readJsonBody`, `normalizeWakePayload`,
`normalizeAgentPayload`, `isHookAgentAllowed`,
`resolveHookSessionKey`, `resolveHookChannel`, `applyHookMappings`)
are abstracted as input data — to an ordered event trace (dispatch
calls and the final response) together with the updated failure
table and the handled/not-handled verdict. -/

/-- Outcome of `readJsonBody`. -/
inductive BodyOutcome where
  | okBody | tooLarge | timedOut | badJson
  deriving Repr, DecidableEq

/-- Outcome of `applyHookMappings` for a non-`wake`/`agent` sub-path:
it may throw, match nothing, return a failed validation, an explicit
drop (`action: null`), a wake action, or an agent action (whose
channel/policy/session-key resolutions are abstracted). -/
inductive MappingOutcome where
  | thrown | noMatch | matchErr | dropAction | wakeAction
  | agentAction (channelOk allowed sessionOk : Bool)
  deriving Repr, DecidableEq

/-- Abstract hook request. -/
structure HookReqModel where
  hasConfig : Bool
  pathInBase : Bool
  queryHasToken : Bool
  tokenMatches : Bool
  remoteAddr : Option String
  isPost : Bool
  subPath : String
  body : BodyOutcome
  wakeNormOk : Bool
  agentNormOk : Bool
  agentAllowed : Bool
  agentSessionOk : Bool
  mappingsPresent : Bool
  mapping : MappingOutcome
  deriving Repr, DecidableEq

/-- Observable handler events, in program order: dispatch calls and
the response (status, `Retry-After` header, plain-text body). -/
inductive HEvent where
  | dispatchWake
  | dispatchAgent
  | respond (status : Nat) (retryAfter : Option Int) (message : Option String)
  deriving Repr, DecidableEq

/-- The response body of the query-string-token rejection. -/
def hookQueryTokenMessage : String :=
  "Hook token must be provided via Authorization: Bearer <token> or X-OpenClaw-Token header (query parameters are not allowed)."

/-- The handler returned by `createHooksRequestHandler`, translated
branch for branch.  Result: (handled, event trace, failure table). -/
def hooksHandle (r : HookReqModel) (t : FailTable) (now : Int) :
    Bool × List HEvent × FailTable :=
  if r.hasConfig = false then (false, [], t)
  else if r.pathInBase = false then (false, [], t)
  else if r.queryHasToken then (true, [.respond 400 none (some hookQueryTokenMessage)], t)
  else
    let clientKey := resolveHookClientKey r.remoteAddr
    if r.tokenMatches = false then
      let rec_ := recordHookAuthFailure t clientKey now
      if rec_.2.throttled then
        (true, [.respond 429 (some (rec_.2.retryAfterSeconds.getD 1)) (some "Too Many Requests")],
          rec_.1)
      else (true, [.respond 401 none (some "Unauthorized")], rec_.1)
    else
      let t' := clearHookAuthFailure t clientKey
      if r.isPost = false then (true, [.respond 405 none (some "Method Not Allowed")], t')
      else if r.subPath = "" then (true, [.respond 404 none (some "Not Found")], t')
      else
        match r.body with
        | .tooLarge => (true, [.respond 413 none none], t')
        | .timedOut => (true, [.respond 408 none none], t')
        | .badJson => (true, [.respond 400 none none], t')
        | .okBody =>
          if r.subPath = "wake" then
            if r.wakeNormOk then (true, [.dispatchWake, .respond 200 none none], t')
            else (true, [.respond 400 none none], t')
          else if r.subPath = "agent" then
            if r.agentNormOk = false then (true, [.respond 400 none none], t')
            else if r.agentAllowed = false then (true, [.respond 400 none none], t')
            else if r.agentSessionOk = false then (true, [.respond 400 none none], t')
            else (true, [.dispatchAgent, .respond 202 none none], t')
          else if r.mappingsPresent then
            match r.mapping with
            | .thrown => (true, [.respond 500 none none], t')
            | .noMatch => (true, [.respond 404 none (some "Not Found")], t')
            | .matchErr => (true, [.respond 400 none none], t')
            | .dropAction => (true, [.respond 204 none none], t')
            | .wakeAction => (true, [.dispatchWake, .respond 200 none none], t')
            | .agentAction ch alw se =>
              if ch = false then (true, [.respond 400 none none], t')
              else if alw = false then (true, [.respond 400 none none], t')
              else if se = false then (true, [.respond 400 none none], t')
              else (true, [.dispatchAgent, .respond 202 none none], t')
          else (true, [.respond 404 none (some "Not Found")], t')

/-- Run the handler over a sequence of arrival times of the same
request, threading the failure table; returns the traces in order. -/
def hooksHandleSeq (r : HookReqModel) : FailTable → List Int → List (List HEvent) × FailTable
  | t, [] => ([], t)
  | t, now :: rest =>
    let step := hooksHandle r t now
    let tail := hooksHandleSeq r step.2.2 rest
    (step.2.1 :: tail.1, tail.2)

/-- Number of entries of the table carrying a given key. -/
def keyCount (t : FailTable) (k : String) : Nat :=
  (t.filter fun e => e.1 == k).length

/-! ## Dispatch-before-response checkers (C4) -/

/-- Checker of the claim's invariant as stated: scanning the trace in
order, every response with a 2xx status must be preceded by a
completed dispatch event.  The flag records whether a dispatch has
completed so far. -/
def dispatch2xxStrict : Bool → List HEvent → Bool
  | _, [] => true
  | _, HEvent.dispatchWake :: rest => dispatch2xxStrict true rest
  | _, HEvent.dispatchAgent :: rest => dispatch2xxStrict true rest
  | seen, HEvent.respond s _ _ :: rest =>
    ((!(decide (200 ≤ s) && decide (s < 300))) || seen) && dispatch2xxStrict seen rest

/-- The amended checker: like `dispatch2xxStrict` but exempting the
204 No-Content response of an explicit mapping drop, which the code
sends without dispatching. -/
def dispatch2xxExcept204 : Bool → List HEvent → Bool
  | _, [] => true
  | _, HEvent.dispatchWake :: rest => dispatch2xxExcept204 true rest
  | _, HEvent.dispatchAgent :: rest => dispatch2xxExcept204 true rest
  | seen, HEvent.respond s _ _ :: rest =>
    ((!(decide (200 ≤ s) && decide (s < 300) && !(s == 204))) || seen) &&
      dispatch2xxExcept204 seen rest

/-- The trace contains a dispatch call. -/
def hasDispatchEvent (tr : List HEvent) : Bool :=
  tr.any fun e =>
    match e with
    | HEvent.dispatchWake => true
    | HEvent.dispatchAgent => true
    | _ => false

/-- The trace contains a 4xx response. -/
def has4xxRespond (tr : List HEvent) : Bool :=
  tr.any fun e =>
    match e with
    | HEvent.respond s _ _ => decide (400 ≤ s) && decide (s < 500)
    | _ => false

/-- A mapped-hook request whose mapping rule explicitly drops the
event (`action: null`). -/
def dropHookRequest : HookReqModel :=
  { hasConfig := true, pathInBase := true, queryHasToken := false,
    tokenMatches := true, remoteAddr := some "192.0.2.44",
    isPost := true, subPath := "ci", body := BodyOutcome.okBody,
    wakeNormOk := true, agentNormOk := true, agentAllowed := true,
    agentSessionOk := true, mappingsPresent := true,
    mapping := MappingOutcome.dropAction }

/-! ## Framebuffer proxy (`attachVncProxy`, `gateway/vnc-proxy.ts`)

One session bridges a WebSocket to an upstream TCP socket.  The
session state tracks the `upstream`/`wsOpen` variables and the
observable socket facts (`destroyed`, `readyState`), counts the
effective `destroy()`/`close()` calls and records the bytes written
to each side.  Event handlers are translated one for one into a step
function; `sendFails`/`writeFails` model the `try`/`catch` around
`ws.send` and `upstream.write`. -/

/-- A WebSocket message payload as matched by the `ws.on("message")`
handler: a `Buffer`, an `ArrayBuffer`, an array of `Buffer`s, or
anything else converted through `String(data)`. -/
inductive WsPayload where
  | buf (bytes : List Nat)
  | arrayBuf (bytes : List Nat)
  | bufList (parts : List (List Nat))
  | str (s : String)
  deriving Repr, DecidableEq

/-- UTF-8 bytes of a string (`Buffer.from(string)`). -/
def utf8Bytes (s : String) : List Nat :=
  s.toUTF8.toList.map (fun b => b.toNat)

/-- The payload coalescing of the `ws.on("message")` handler:
`Buffer` as-is, `ArrayBuffer` via `Buffer.from`, an array via
`Buffer.concat` (order-preserving concatenation), anything else via
`Buffer.from(String(data))`. -/
def coalesceWsPayload : WsPayload → List Nat
  | .buf b => b
  | .arrayBuf b => b
  | .bufList ps => ps.flatten
  | .str s => utf8Bytes s

/-- Framebuffer proxy session state. -/
structure VncState where
  upstreamPresent : Bool
  destroyed : Bool
  wsOpen : Bool
  readyState : Nat
  destroyCalls : Nat
  closeCalls : Nat
  upWrites : List (List Nat)
  wsSends : List (List Nat)
  deriving Repr, DecidableEq

/-- Session state right after `attachVncProxy`: upstream connection
created, WebSocket open (`readyState === 1`). -/
def initVncState : VncState :=
  { upstreamPresent := true, destroyed := false, wsOpen := true, readyState := 1,
    destroyCalls := 0, closeCalls := 0, upWrites := [], wsSends := [] }

/-- First half of `cleanup()`:
`if (upstream && !upstream.destroyed) { upstream.destroy(); upstream = null; }`. -/
def vncDestroyStep (s : VncState) : VncState :=
  if s.upstreamPresent = true ∧ s.destroyed = false then
    { s with destroyed := true, upstreamPresent := false,
             destroyCalls := s.destroyCalls + 1 }
  else s

/-- Second half of `cleanup()`:
`if (wsOpen && ws.readyState < 2) { ws.close(); wsOpen = false; }`
(`ws.close()` moves `readyState` to CLOSING). -/
def vncCloseStep (s : VncState) : VncState :=
  if s.wsOpen = true ∧ s.readyState < 2 then
    { s with readyState := 2, wsOpen := false, closeCalls := s.closeCalls + 1 }
  else s

/-- The `cleanup()` function. -/
def vncCleanup (s : VncState) : VncState :=
  vncCloseStep (vncDestroyStep s)

/-- Session events: upstream `data`/`close`/`error`, WebSocket
`message`/`close`/`error`. -/
inductive VncEv where
  | upData (bytes : List Nat) (sendFails : Bool)
  | upClose
  | upErr
  | wsMsg (d : WsPayload) (writeFails : Bool)
  | wsCloseEv
  | wsErr
  deriving Repr, DecidableEq

/-- The event handlers of `attachVncProxy`, one case per handler.  A
TCP `close` event implies the socket is already destroyed; the ws
`close` handler clears `wsOpen` before running `cleanup`. -/
def vncStep (s : VncState) : VncEv → VncState
  | .upData b f =>
    if s.wsOpen = true ∧ s.readyState = 1 then
      (if f then vncCleanup s else { s with wsSends := s.wsSends ++ [b] })
    else s
  | .upClose => vncCleanup { s with destroyed := true }
  | .upErr => vncCleanup s
  | .wsMsg d f =>
    if s.upstreamPresent = true ∧ s.destroyed = false then
      (if f then vncCleanup s else { s with upWrites := s.upWrites ++ [coalesceWsPayload d] })
    else s
  | .wsCloseEv => vncCleanup { s with wsOpen := false }
  | .wsErr => vncCleanup s

/-- Run a sequence of session events. -/
def vncRun (s : VncState) : List VncEv → VncState
  | [] => s
  | e :: es => vncRun (vncStep s e) es

/-- Close and error events (either side). -/
def isCloseOrErrEv : VncEv → Bool
  | .upClose => true
  | .upErr => true
  | .wsCloseEv => true
  | .wsErr => true
  | _ => false

/-- Both sides torn down: no live writable upstream and no open,
not-yet-closing WebSocket. -/
def vncTorn (s : VncState) : Prop :=
  (s.upstreamPresent = false ∨ s.destroyed = true) ∧
  (s.wsOpen = false ∨ 2 ≤ s.readyState)

/-- Effective destroy/close calls: at most one each, ever. -/
def vncCallInv (s : VncState) : Prop :=
  (s.destroyCalls ≤ 1 ∧ (1 ≤ s.destroyCalls → s.destroyed = true)) ∧
  (s.closeCalls ≤ 1 ∧ (1 ≤ s.closeCalls → s.wsOpen = false))

/-! ## Display supervisor (`VncProcessManager`,
`gateway/vnc-process-manager.ts`)

The restart schedule (`restartTimers : Map<string, Timeout>` keyed by
process kind) together with the `stopping` flag is modelled as a
state machine.  `tracked` is the list of kinds with a pending
debounced restart timer; `innerPending` counts the untracked 2 s
follow-up timers armed inside the xvfb restart callback;
`restartsDone` counts restart actions actually performed by timer
callbacks.  Exit handlers guard on `stopping` before calling
`scheduleRestart`; error handlers call it directly (it re-checks
`stopping` itself); `stop()` sets `stopping`, clears every timer of
the schedule and empties it; timer callbacks first delete their
entry, then re-check `stopping`. -/

/-- The two supervised process kinds. -/
inductive ProcKind where
  | xvfb | x11vnc
  deriving Repr, DecidableEq

/-- Supervisor scheduling state. -/
structure SupState where
  stopping : Bool
  tracked : List ProcKind
  innerPending : Nat
  restartsDone : Nat
  deriving Repr, DecidableEq

/-- State after construction / `start()`. -/
def supInit : SupState :=
  { stopping := false, tracked := [], innerPending := 0, restartsDone := 0 }

/-- Translation of `scheduleRestart`: no-op while stopping or when a timer for the
kind is already pending; otherwise arm a new timer. -/
def scheduleRestart (s : SupState) (k : ProcKind) : SupState :=
  if s.stopping = true then s
  else if k ∈ s.tracked then s
  else { s with tracked := k :: s.tracked }

/-- Supervisor events: child exit, child error, a pending per-kind
timer firing, the 2 s follow-up timer firing, `stop()`, `start()`. -/
inductive SupEv where
  | exitEv (k : ProcKind)
  | errEv (k : ProcKind)
  | fireTimer (k : ProcKind)
  | fireInner
  | stopEv
  | startEv
  deriving Repr, DecidableEq

/-- One supervisor transition.  A `fireTimer k` with no pending entry
for `k` is a no-op (the timer was cleared).  The timer callback
deletes its entry, re-checks `stopping`, restarts the process and —
for the display — arms the 2 s follow-up; the follow-up callback
re-checks `stopping` before restarting the framebuffer server. -/
def supStep (s : SupState) : SupEv → SupState
  | .exitEv k => if s.stopping = true then s else scheduleRestart s k
  | .errEv k => scheduleRestart s k
  | .fireTimer k =>
    if k ∈ s.tracked then
      (if s.stopping = true then { s with tracked := s.tracked.erase k }
       else if k = ProcKind.xvfb then
        { s with tracked := s.tracked.erase k,
                 restartsDone := s.restartsDone + 1,
                 innerPending := s.innerPending + 1 }
       else
        { s with tracked := s.tracked.erase k,
                 restartsDone := s.restartsDone + 1 })
    else s
  | .fireInner =>
    if 0 < s.innerPending then
      (if s.stopping = true then { s with innerPending := s.innerPending - 1 }
       else { s with innerPending := s.innerPending - 1,
                     restartsDone := s.restartsDone + 1 })
    else s
  | .stopEv => { s with stopping := true, tracked := [] }
  | .startEv => { s with stopping := false }

/-- Run a sequence of supervisor events. -/
def supRun (s : SupState) : List SupEv → SupState
  | [] => s
  | e :: es => supRun (supStep s e) es

/-! ## Theorems -/

/-- C1: a requested noVNC asset is served iff the relative path is free
of NUL bytes, its POSIX normalization neither starts with `../` nor
equals `..`, and the joined path keeps the bundled root as a string
prefix; the traversal request `/vnc/novnc/../../etc/passwd`
(relative part `../../etc/passwd`) is rejected with 404 without any
filesystem access.  The hypotheses record facts true of the real
bundled root: it is produced by `path.resolve` (hence normalized) and
is a directory, not a servable file. -/
theorem noVncAsset_served_iff_safe (root rel : String) (fileOk : String → Bool)
    (hRootNorm : posixNormalize root = root)
    (hRootNotFile : fileOk root = false)
    (hFile : fileOk (pathJoin root rel) = true) :
    (serveNoVncAsset root rel fileOk = true ↔
      (strContainsChar rel charNul = false ∧
       strStarts (posixNormalize rel) "../" = false ∧
       posixNormalize rel ≠ ".." ∧
       strStarts (pathJoin root rel) root = true)) ∧
    (∀ r : String, ∀ fk : String → Bool,
      serveNoVncAsset r "../../etc/passwd" fk = false) := by
  constructor
  · by_cases hrel : rel = ""
    · exfalso
      by_cases hroot : root = ""
      · rw [hroot] at hRootNorm
        have hdot : posixNormalize "" = "." := by decide
        rw [hdot] at hRootNorm
        exact absurd hRootNorm (by decide)
      · have hjoin : pathJoin root "" = root := by
          unfold pathJoin
          simp [hroot, hRootNorm]
        rw [hrel, hjoin, hRootNotFile] at hFile
        exact Bool.noConfusion hFile
    · unfold serveNoVncAsset isSafeNoVncAssetPath
      by_cases hnul : strContainsChar rel charNul = true <;>
        by_cases hdd : strStarts (posixNormalize rel) "../" = true <;>
          by_cases heq : (posixNormalize rel == "..") = true <;>
            by_cases hpre : strStarts (pathJoin root rel) root = true <;>
              simp_all
  · intro r fk
    have h : isSafeNoVncAssetPath "../../etc/passwd" = false := by decide
    simp [serveNoVncAsset, h]

/-- Witness for C1 at a concrete root, relative path and filesystem. -/
theorem noVncAsset_served_iff_safe_witness :
    posixNormalize "/opt/novnc" = "/opt/novnc" ∧
    (serveNoVncAsset "/opt/novnc" "core/rfb.js"
        (fun s => s == "/opt/novnc/core/rfb.js") = true ↔
      (strContainsChar "core/rfb.js" charNul = false ∧
       strStarts (posixNormalize "core/rfb.js") "../" = false ∧
       posixNormalize "core/rfb.js" ≠ ".." ∧
       strStarts (pathJoin "/opt/novnc" "core/rfb.js") "/opt/novnc" = true)) :=
  ⟨by decide,
   (noVncAsset_served_iff_safe "/opt/novnc" "core/rfb.js"
      (fun s => s == "/opt/novnc/core/rfb.js")
      (by decide) (by decide) (by decide)).1⟩

/-- C2: (a) when the machine-scoped authorizer returns `ok` and no
valid bearer credential was accepted, the request was a local direct
connection, or the effective client IP is nonempty, private/loopback,
and matched by a live entry of the authenticated-client registry;
(b) when the effective IP is not private/loopback, the result never
depends on the sibling registry, and — absent a local direct
connection or an accepted bearer credential — the request is
rejected. -/
theorem machineScopedAuth_sound (i : MachineAuthIn)
    (hNoCred : bearerAccepted i = false) :
    ((authorizeMachineScoped i).ok = true →
      (i.localDirect = true ∨
        (i.resolvedIp ≠ "" ∧ i.privLoop i.resolvedIp = true ∧
          hasAuthorizedWsClientForIp i.clients i.resolvedIp = true))) ∧
    (i.privLoop i.resolvedIp = false →
      ((∀ cs : List WsClientEntry,
          authorizeMachineScoped { i with clients := cs } =
            authorizeMachineScoped i) ∧
        (i.localDirect = false →
          (authorizeMachineScoped i).ok = false))) := by
  have hba : (bearerTried i && i.tokenAuth.ok) = false := hNoCred
  refine ⟨?_, ?_⟩
  · intro hok
    by_cases hld : i.localDirect = true
    · exact Or.inl hld
    · right
      unfold authorizeMachineScoped at hok
      rw [Bool.not_eq_true] at hld
      rw [hld] at hok
      simp only [Bool.false_eq_true, if_false, hba] at hok
      by_cases hip : (i.resolvedIp == "") = true
      · exfalso
        rw [if_pos hip] at hok
        cases hbt : bearerTried i <;> simp [hbt, Option.getD] at hok
        · rw [hbt] at hba
          simp at hba
          rw [hba] at hok
          exact Bool.noConfusion hok
      · rw [if_neg (by simp_all)] at hok
        by_cases hpl : i.privLoop i.resolvedIp = true
        · by_cases hreg : hasAuthorizedWsClientForIp i.clients i.resolvedIp = true
          · exact ⟨by simpa using hip, hpl, hreg⟩
          · exfalso
            rw [hpl] at hok
            simp only [Bool.not_true, Bool.false_eq_true, if_false] at hok
            rw [if_neg (by simp_all)] at hok
            cases hbt : bearerTried i <;> simp [hbt, Option.getD] at hok
            · rw [hbt] at hba
              simp at hba
              rw [hba] at hok
              exact Bool.noConfusion hok
        · exfalso
          rw [Bool.not_eq_true] at hpl
          rw [hpl] at hok
          simp only [Bool.not_false, if_true] at hok
          cases hbt : bearerTried i <;> simp [hbt, Option.getD] at hok
          · rw [hbt] at hba
            simp at hba
            rw [hba] at hok
            exact Bool.noConfusion hok
  · intro hpl
    constructor
    · intro cs
      unfold authorizeMachineScoped
      simp only [bearerTried, hasAuthorizedWsClientForIp, hpl]
      rfl
    · intro hld
      unfold authorizeMachineScoped
      rw [hld]
      simp only [Bool.false_eq_true, if_false, hba]
      by_cases hip : (i.resolvedIp == "") = true
      · rw [if_pos hip]
        cases hbt : bearerTried i <;> simp [hbt, Option.getD]
        rw [hbt] at hba
        simpa using hba
      · rw [if_neg hip, hpl]
        simp only [Bool.not_false, if_true]
        cases hbt : bearerTried i <;> simp [hbt, Option.getD]
        rw [hbt] at hba
        simpa using hba

/-- Witness for C2 at a concrete non-local request from a public IP
with a wrong bearer token and a nonempty sibling registry. -/
theorem machineScopedAuth_sound_witness :
    bearerAccepted
        { localDirect := false, bearerToken := some "wrong",
          tokenAuth := { ok := false, reason := some "unauthorized" },
          resolvedIp := "203.0.113.7",
          privLoop := fun s => s == "127.0.0.1",
          clients := [{ clientIp := some "203.0.113.7" }] } = false ∧
    ((fun s => s == "127.0.0.1") "203.0.113.7" = false →
      ((false = false →
        (authorizeMachineScoped
            { localDirect := false, bearerToken := some "wrong",
              tokenAuth := { ok := false, reason := some "unauthorized" },
              resolvedIp := "203.0.113.7",
              privLoop := fun s => s == "127.0.0.1",
              clients := [{ clientIp := some "203.0.113.7" }] }).ok = false))) :=
  ⟨by decide,
   fun hpl _ =>
     ((machineScopedAuth_sound
        { localDirect := false, bearerToken := some "wrong",
          tokenAuth := { ok := false, reason := some "unauthorized" },
          resolvedIp := "203.0.113.7",
          privLoop := fun s => s == "127.0.0.1",
          clients := [{ clientIp := some "203.0.113.7" }] }
        (by decide)).2 hpl).2 rfl⟩

/-! ### Failure-table lemmas -/

theorem tableGet_eq_none_iff (t : FailTable) (k : String) :
    tableGet t k = none ↔ ∀ e ∈ t, (e.1 == k) = false := by
  unfold tableGet
  rw [Option.map_eq_none', List.find?_eq_none]
  simp

theorem tableGet_delete (t : FailTable) (k : String) :
    tableGet (tableDelete t k) k = none := by
  rw [tableGet_eq_none_iff]
  intro e he
  have := (List.mem_filter.mp he).2
  simpa using this

theorem tableGet_delete_append (t : FailTable) (k : String) (e : HookAuthFailure) :
    tableGet (tableDelete t k ++ [(k, e)]) k = some e := by
  unfold tableGet
  rw [List.find?_append]
  have h1 : (tableDelete t k).find? (fun e => e.1 == k) = none := by
    have := tableGet_delete t k
    unfold tableGet at this
    exact Option.map_eq_none'.mp this
  rw [h1]
  simp

theorem tableGet_none_of_sub {t u : FailTable} {k : String}
    (hsub : ∀ e, e ∈ u → e ∈ t) (h : tableGet t k = none) : tableGet u k = none := by
  rw [tableGet_eq_none_iff] at *
  exact fun e he => h e (hsub e he)

theorem tableHas_of_get {t : FailTable} {k : String} {e : HookAuthFailure}
    (h : tableGet t k = some e) : tableHas t k = true := by
  have hne : tableGet t k ≠ none := by rw [h]; simp
  unfold tableHas
  rw [List.any_eq_true]
  by_contra hc
  push_neg at hc
  refine hne ((tableGet_eq_none_iff t k).mpr ?_)
  intro x hx
  simpa using hc x hx

theorem evictForInsert_sub (t : FailTable) (k : String) (now : Int) :
    ∀ e, e ∈ evictForInsert t k now → e ∈ t := by
  intro e he
  unfold evictForInsert at he
  split at he
  · split at he
    · exact (List.mem_filter.mp (List.mem_of_mem_drop he)).1
    · exact (List.mem_filter.mp he).1
  · exact he

theorem evictForInsert_of_has {t : FailTable} {k : String} {now : Int}
    (h : tableHas t k = true) : evictForInsert t k now = t := by
  unfold evictForInsert
  rw [if_neg]
  rintro ⟨h1, _⟩
  rw [h] at h1
  exact Bool.noConfusion h1

/-- Running `recordHookAuthFailure` on a key absent from the table: the entry
is created with count 1 and window start `now`, and the attempt is
not throttled. -/
theorem record_fresh (t : FailTable) (k : String) (now : Int)
    (h : tableGet t k = none) :
    (recordHookAuthFailure t k now).2 = { throttled := false } ∧
    tableGet (recordHookAuthFailure t k now).1 k =
      some { count := 1, windowStartedAtMs := now } := by
  have hcur : tableGet (evictForInsert t k now) k = none :=
    tableGet_none_of_sub (evictForInsert_sub t k now) h
  unfold recordHookAuthFailure
  rw [hcur]
  refine ⟨by simp [nextEntry, throttleFor, hookAuthFailureLimit], ?_⟩
  simpa [nextEntry] using tableGet_delete_append (evictForInsert t k now) k _

/-- Running `recordHookAuthFailure` on a key present with count `c` whose
window has not elapsed: the count is bumped keeping the window start,
and throttling starts once the new count exceeds the limit, with
`Retry-After` equal to the ceiling in seconds of the remaining
window. -/
theorem record_hit (t : FailTable) (k : String) (now : Int) (c : Nat) (ws : Int)
    (h : tableGet t k = some { count := c, windowStartedAtMs := ws })
    (hwin : now - ws < hookAuthFailureWindowMs) :
    tableGet (recordHookAuthFailure t k now).1 k =
      some { count := c + 1, windowStartedAtMs := ws } ∧
    (recordHookAuthFailure t k now).2 =
      (if c + 1 ≤ hookAuthFailureLimit then { throttled := false }
       else { throttled := true,
              retryAfterSeconds :=
                some ((max 1 (ws + hookAuthFailureWindowMs - now) + 999) / 1000) }) := by
  have hev : evictForInsert t k now = t := evictForInsert_of_has (tableHas_of_get h)
  have hne : nextEntry (tableGet t k) now =
      { count := c + 1, windowStartedAtMs := ws } := by
    rw [h]
    dsimp only [nextEntry]
    rw [if_neg (show ¬ hookAuthFailureWindowMs ≤ now - ws by omega)]
  unfold recordHookAuthFailure
  rw [hev, hne]
  dsimp only
  refine ⟨tableGet_delete_append t k _, ?_⟩
  unfold throttleFor
  dsimp only

/-- One wrong-token request through the hooks handler: a failure is
recorded and the response is 401, or 429 with `Retry-After` when
throttled. -/
theorem hooksHandle_badToken_step (r : HookReqModel) (t : FailTable) (tm : Int)
    (c : Nat) (ws : Int)
    (hcfg : r.hasConfig = true) (hpath : r.pathInBase = true)
    (hq : r.queryHasToken = false) (htok : r.tokenMatches = false)
    (hget : tableGet t (resolveHookClientKey r.remoteAddr) =
      some { count := c, windowStartedAtMs := ws })
    (hwm : tm - ws < hookAuthFailureWindowMs) :
    hooksHandle r t tm =
      (true,
       (if c + 1 ≤ hookAuthFailureLimit then
          [HEvent.respond 401 none (some "Unauthorized")]
        else
          [HEvent.respond 429
            (some ((max 1 (ws + hookAuthFailureWindowMs - tm) + 999) / 1000))
            (some "Too Many Requests")]),
       (recordHookAuthFailure t (resolveHookClientKey r.remoteAddr) tm).1) := by
  obtain ⟨hget', hthr⟩ :=
    record_hit t (resolveHookClientKey r.remoteAddr) tm c ws hget hwm
  by_cases hc : c + 1 ≤ hookAuthFailureLimit
  · rw [if_pos hc] at hthr
    simp [hooksHandle, hcfg, hpath, hq, htok, hthr, if_pos hc]
  · rw [if_neg hc] at hthr
    simp [hooksHandle, hcfg, hpath, hq, htok, hthr, if_neg hc]

/-- Wrong-token requests in sequence, starting from a table where the
client key has count `c` inside the window starting at `ws`: the
`j`-th request is answered 401 while the count stays within the
limit, and 429 with the ceiling of the remaining window afterwards. -/
theorem hooksHandleSeq_throttle (r : HookReqModel)
    (hcfg : r.hasConfig = true) (hpath : r.pathInBase = true)
    (hq : r.queryHasToken = false) (htok : r.tokenMatches = false) :
    ∀ (ts : List Int) (t : FailTable) (c : Nat) (ws : Int),
      tableGet t (resolveHookClientKey r.remoteAddr) =
        some { count := c, windowStartedAtMs := ws } →
      (∀ tm ∈ ts, tm - ws < hookAuthFailureWindowMs) →
      ∀ j, j < ts.length →
        ∃ tmj, ts.get? j = some tmj ∧
          (hooksHandleSeq r t ts).1.get? j = some
            (if c + 1 + j ≤ hookAuthFailureLimit then
              [HEvent.respond 401 none (some "Unauthorized")]
            else
              [HEvent.respond 429
                (some ((max 1 (ws + hookAuthFailureWindowMs - tmj) + 999) / 1000))
                (some "Too Many Requests")]) := by
  intro ts
  induction ts with
  | nil => intro t c ws hget hwin j hj; simp at hj
  | cons tm rest ih =>
    intro t c ws hget hwin j hj
    have hstep := hooksHandle_badToken_step r t tm c ws hcfg hpath hq htok hget
      (hwin tm (by simp))
    obtain ⟨hget', _⟩ :=
      record_hit t (resolveHookClientKey r.remoteAddr) tm c ws hget (hwin tm (by simp))
    have hseq : (hooksHandleSeq r t (tm :: rest)).1 =
        (hooksHandle r t tm).2.1 ::
          (hooksHandleSeq r (hooksHandle r t tm).2.2 rest).1 := rfl
    rcases j with _ | j'
    · refine ⟨tm, rfl, ?_⟩
      rw [hseq]
      simp only [List.get?_cons_zero, hstep]
    · have hj' : j' < rest.length := by simpa using hj
      obtain ⟨tmj, h1, h2⟩ := ih (recordHookAuthFailure t (resolveHookClientKey r.remoteAddr) tm).1
        (c + 1) ws hget' (fun x hx => hwin x (by simp [hx])) j' hj'
      refine ⟨tmj, by simpa using h1, ?_⟩
      rw [hseq, List.get?_cons_succ]
      have htab : (hooksHandle r t tm).2.2 =
          (recordHookAuthFailure t (resolveHookClientKey r.remoteAddr) tm).1 := by
        rw [hstep]
      rw [htab]
      have heq : c + 1 + (j' + 1) = c + 1 + 1 + j' := by omega
      rw [heq]
      exact h2

/-- C3: 21 consecutive wrong-token hook requests within the 60 s
window from one client key — starting from a table with no entry for
that key — are answered 401 for the first 20 attempts and 429 for
the 21st, with `Retry-After` equal to
`⌈(window_start + 60000 - now) / 1000⌉` (as
`(window_start + 60000 - now + 999) / 1000` on positive integers)
and at least 1. -/
theorem hookAuth_throttles_21st (r : HookReqModel) (t0 : FailTable)
    (t1 : Int) (rest : List Int)
    (hcfg : r.hasConfig = true) (hpath : r.pathInBase = true)
    (hq : r.queryHasToken = false) (htok : r.tokenMatches = false)
    (hfresh : tableGet t0 (resolveHookClientKey r.remoteAddr) = none)
    (hlen : rest.length = 20)
    (hwin : ∀ tm ∈ rest, tm - t1 < hookAuthFailureWindowMs) :
    (∀ j, j < 20 → (hooksHandleSeq r t0 (t1 :: rest)).1.get? j =
        some [HEvent.respond 401 none (some "Unauthorized")]) ∧
    (∃ tl, rest.get? 19 = some tl ∧
      (hooksHandleSeq r t0 (t1 :: rest)).1.get? 20 =
        some [HEvent.respond 429
          (some ((t1 + hookAuthFailureWindowMs - tl + 999) / 1000))
          (some "Too Many Requests")] ∧
      1 ≤ (t1 + hookAuthFailureWindowMs - tl + 999) / 1000) := by
  obtain ⟨hthr0, hget1⟩ := record_fresh t0 (resolveHookClientKey r.remoteAddr) t1 hfresh
  have hstep0 : hooksHandle r t0 t1 =
      (true, [HEvent.respond 401 none (some "Unauthorized")],
       (recordHookAuthFailure t0 (resolveHookClientKey r.remoteAddr) t1).1) := by
    simp [hooksHandle, hcfg, hpath, hq, htok, hthr0]
  have hseq : (hooksHandleSeq r t0 (t1 :: rest)).1 =
      (hooksHandle r t0 t1).2.1 ::
        (hooksHandleSeq r (hooksHandle r t0 t1).2.2 rest).1 := rfl
  have htail := hooksHandleSeq_throttle r hcfg hpath hq htok rest
    (recordHookAuthFailure t0 (resolveHookClientKey r.remoteAddr) t1).1 1 t1 hget1 hwin
  constructor
  · intro j hj
    rcases j with _ | j'
    · rw [hseq]
      simp [hstep0]
    · have hj' : j' < rest.length := by omega
      obtain ⟨tmj, _, h2⟩ := htail j' hj'
      rw [hseq, List.get?_cons_succ]
      have htab : (hooksHandle r t0 t1).2.2 =
          (recordHookAuthFailure t0 (resolveHookClientKey r.remoteAddr) t1).1 := by
        rw [hstep0]
      rw [htab]
      rw [if_pos (show 1 + 1 + j' ≤ hookAuthFailureLimit by
        simp only [hookAuthFailureLimit]; omega)] at h2
      exact h2
  · obtain ⟨tl, h1, h2⟩ := htail 19 (by omega)
    have hmem : tl ∈ rest := List.get?_mem h1
    have hw : tl - t1 < hookAuthFailureWindowMs := hwin tl hmem
    have hwv : hookAuthFailureWindowMs = 60000 := rfl
    have hpos : (1 : Int) ≤ t1 + hookAuthFailureWindowMs - tl := by omega
    rw [if_neg (show ¬ 1 + 1 + 19 ≤ hookAuthFailureLimit by
      simp only [hookAuthFailureLimit]; omega)] at h2
    rw [max_eq_right hpos] at h2
    refine ⟨tl, h1, ?_⟩
    constructor
    · rw [hseq, List.get?_cons_succ]
      have htab : (hooksHandle r t0 t1).2.2 =
          (recordHookAuthFailure t0 (resolveHookClientKey r.remoteAddr) t1).1 := by
        rw [hstep0]
      rw [htab]
      exact h2
    · omega

/-- Witness for C3: the concrete sequence of 21 wrong-token requests
at times 0, 0, …, 0 from IP `198.51.100.4`. -/
theorem hookAuth_throttles_21st_witness :
    ((hooksHandleSeq
        { hasConfig := true, pathInBase := true, queryHasToken := false,
          tokenMatches := false, remoteAddr := some "198.51.100.4",
          isPost := true, subPath := "wake", body := BodyOutcome.okBody,
          wakeNormOk := true, agentNormOk := true, agentAllowed := true,
          agentSessionOk := true, mappingsPresent := false,
          mapping := MappingOutcome.noMatch }
        [] (0 :: List.replicate 20 0)).1.get? 5 =
      some [HEvent.respond 401 none (some "Unauthorized")]) ∧
    ((hooksHandleSeq
        { hasConfig := true, pathInBase := true, queryHasToken := false,
          tokenMatches := false, remoteAddr := some "198.51.100.4",
          isPost := true, subPath := "wake", body := BodyOutcome.okBody,
          wakeNormOk := true, agentNormOk := true, agentAllowed := true,
          agentSessionOk := true, mappingsPresent := false,
          mapping := MappingOutcome.noMatch }
        [] (0 :: List.replicate 20 0)).1.get? 20 =
      some [HEvent.respond 429 (some 60) (some "Too Many Requests")]) := by
  obtain ⟨h401, tl, htl, h429, _⟩ :=
    hookAuth_throttles_21st
      { hasConfig := true, pathInBase := true, queryHasToken := false,
        tokenMatches := false, remoteAddr := some "198.51.100.4",
        isPost := true, subPath := "wake", body := BodyOutcome.okBody,
        wakeNormOk := true, agentNormOk := true, agentAllowed := true,
        agentSessionOk := true, mappingsPresent := false,
        mapping := MappingOutcome.noMatch }
      [] 0 (List.replicate 20 0)
      rfl rfl rfl rfl (by decide) (by decide)
      (by intro tm htm; rw [List.eq_of_mem_replicate htm]; decide)
  have htl0 : tl = 0 := by
    have : (List.replicate 20 (0 : Int)).get? 19 = some 0 := by decide
    rw [this] at htl
    exact (Option.some_inj.mp htl).symm
  subst htl0
  refine ⟨h401 5 (by omega), ?_⟩
  simpa using h429

theorem tableHas_eq_false_iff (t : FailTable) (k : String) :
    tableHas t k = false ↔ ∀ e ∈ t, (e.1 == k) = false := by
  unfold tableHas
  rw [List.any_eq_false]
  simp

theorem tableDelete_of_absent {t : FailTable} {k : String}
    (h : ∀ e ∈ t, (e.1 == k) = false) : tableDelete t k = t := by
  unfold tableDelete
  rw [List.filter_eq_self]
  intro a ha
  rw [h a ha]
  rfl

theorem keyCount_tableDelete (t : FailTable) (k : String) :
    List.filter (fun e => e.1 == k) (tableDelete t k) = [] := by
  rw [List.filter_eq_nil_iff]
  intro a ha
  have h2 := (List.mem_filter.mp ha).2
  simp only [Bool.not_eq_true'] at h2
  simp [h2]

theorem tableDelete_length_lt {t : FailTable} {k : String}
    (h : tableHas t k = true) : (tableDelete t k).length < t.length := by
  unfold tableDelete
  rw [List.length_filter_lt_length_iff_exists]
  unfold tableHas at h
  rw [List.any_eq_true] at h
  obtain ⟨e, he, hk⟩ := h
  exact ⟨e, he, by simp [hk]⟩

/-- C5: for every `recordHookAuthFailure` step on a table within
capacity: (1) the table never exceeds the hard capacity of 2048
entries; (2) the recorded key is re-inserted at the recency end
(last in `Map` insertion order) and (3) appears exactly once;
(4) when a new key is inserted at capacity, every surviving old entry
is unexpired (expired entries were pruned first); (5) when pruning
alone does not get below capacity, the oldest half (in insertion
order) of the pruned table is dropped and the fresh entry appended. -/
theorem hookFailureTable_eviction (t : FailTable) (k : String) (now : Int)
    (hcap : t.length ≤ hookAuthFailureTrackMax) :
    ((recordHookAuthFailure t k now).1.length ≤ hookAuthFailureTrackMax) ∧
    (∃ e, (recordHookAuthFailure t k now).1.getLast? = some (k, e)) ∧
    (keyCount (recordHookAuthFailure t k now).1 k = 1) ∧
    (tableHas t k = false → hookAuthFailureTrackMax ≤ t.length →
      ∀ e ∈ (recordHookAuthFailure t k now).1,
        e.1 = k ∨ now - e.2.windowStartedAtMs < hookAuthFailureWindowMs) ∧
    (tableHas t k = false →
      hookAuthFailureTrackMax ≤ (pruneExpired t now).length →
      (recordHookAuthFailure t k now).1 =
        (pruneExpired t now).drop ((pruneExpired t now).length / 2) ++
          [(k, { count := 1, windowStartedAtMs := now })]) := by
  refine ⟨?_, ?_, ?_, ?_, ?_⟩
  · -- (1) capacity bound
    have hres : (recordHookAuthFailure t k now).1.length =
        (tableDelete (evictForInsert t k now) k).length + 1 := by
      unfold recordHookAuthFailure
      rw [List.length_append]
      rfl
    rw [hres]
    by_cases hhas : tableHas t k = true
    · have hev : evictForInsert t k now = t := evictForInsert_of_has hhas
      have := tableDelete_length_lt hhas
      rw [hev]
      omega
    · have hhas' : tableHas t k = false := by simpa using hhas
      by_cases hlen : hookAuthFailureTrackMax ≤ t.length
      · have hcond : tableHas t k = false ∧ hookAuthFailureTrackMax ≤ t.length :=
          ⟨hhas', hlen⟩
        by_cases hp : hookAuthFailureTrackMax ≤ (pruneExpired t now).length
        · have hev : evictForInsert t k now =
              (pruneExpired t now).drop ((pruneExpired t now).length / 2) := by
            unfold evictForInsert
            rw [if_pos hcond, if_pos hp]
          have h1 := List.length_filter_le
            (fun e => !(e.1 == k)) (evictForInsert t k now)
          have h2 : (evictForInsert t k now).length =
              (pruneExpired t now).length - (pruneExpired t now).length / 2 := by
            rw [hev, List.length_drop]
          have h3 : (pruneExpired t now).length ≤ t.length :=
            List.length_filter_le _ t
          unfold tableDelete
          simp only [hookAuthFailureTrackMax] at *
          omega
        · have hev : evictForInsert t k now = pruneExpired t now := by
            unfold evictForInsert
            rw [if_pos hcond, if_neg hp]
          unfold tableDelete
          rw [hev]
          have h1 := List.length_filter_le
            (fun e => !(e.1 == k)) (pruneExpired t now)
          omega
      · have hev : evictForInsert t k now = t := by
          unfold evictForInsert
          rw [if_neg (by rintro ⟨_, h⟩; exact hlen h)]
        have h1 := List.length_filter_le (fun e => !(e.1 == k)) t
        unfold tableDelete
        rw [hev]
        omega
  · -- (2) the key is the most recent entry
    refine ⟨nextEntry (tableGet (evictForInsert t k now) k) now, ?_⟩
    unfold recordHookAuthFailure
    exact List.getLast?_concat _
  · -- (3) the key appears exactly once
    unfold recordHookAuthFailure keyCount
    rw [List.filter_append, keyCount_tableDelete]
    simp
  · -- (4) surviving old entries are unexpired
    intro hhas hlen e he
    unfold recordHookAuthFailure at he
    rcases List.mem_append.mp he with hin | hin
    · right
      have hin' : e ∈ evictForInsert t k now := (List.mem_filter.mp hin).1
      unfold evictForInsert at hin'
      rw [if_pos ⟨hhas, hlen⟩] at hin'
      have hp : e ∈ pruneExpired t now := by
        by_cases hc : hookAuthFailureTrackMax ≤ (pruneExpired t now).length
        · rw [if_pos hc] at hin'
          exact List.mem_of_mem_drop hin'
        · rwa [if_neg hc] at hin'
      exact of_decide_eq_true (List.mem_filter.mp hp).2
    · left
      have heq : e = (k, nextEntry (tableGet (evictForInsert t k now) k) now) := by
        simpa using hin
      rw [heq]
  · -- (5) oldest-half eviction
    intro hhas hp
    have hlen : hookAuthFailureTrackMax ≤ t.length :=
      le_trans hp (List.length_filter_le _ t)
    have hev : evictForInsert t k now =
        (pruneExpired t now).drop ((pruneExpired t now).length / 2) := by
      unfold evictForInsert
      rw [if_pos ⟨hhas, hlen⟩, if_pos hp]
    have habsent : ∀ e ∈ evictForInsert t k now, (e.1 == k) = false :=
      fun e he => (tableHas_eq_false_iff t k).mp hhas e (evictForInsert_sub t k now e he)
    have hget : tableGet (evictForInsert t k now) k = none :=
      tableGet_none_of_sub (evictForInsert_sub t k now)
        ((tableGet_eq_none_iff t k).mpr ((tableHas_eq_false_iff t k).mp hhas))
    unfold recordHookAuthFailure
    rw [tableDelete_of_absent habsent, hget, hev]
    rfl

/-- Witness for C5 at a concrete single-entry table and a fresh key. -/
theorem hookFailureTable_eviction_witness :
    (recordHookAuthFailure [("198.51.100.4", { count := 3, windowStartedAtMs := 0 })]
        "10.0.0.8" 5).1.length ≤ hookAuthFailureTrackMax ∧
    keyCount (recordHookAuthFailure
        [("198.51.100.4", { count := 3, windowStartedAtMs := 0 })] "10.0.0.8" 5).1
      "10.0.0.8" = 1 :=
  ⟨(hookFailureTable_eviction
      [("198.51.100.4", { count := 3, windowStartedAtMs := 0 })] "10.0.0.8" 5
      (by decide)).1,
   (hookFailureTable_eviction
      [("198.51.100.4", { count := 3, windowStartedAtMs := 0 })] "10.0.0.8" 5
      (by decide)).2.2.1⟩

/-- C6: any hook request carrying a `token` query parameter — matched
base path and configured hooks — is answered 400 with the message
naming the `Authorization` header and the `X-OpenClaw-Token` header,
with no dispatch event and no failure-table change, and the outcome
is the same whatever the presented token value: the rejection
precedes token comparison. -/
theorem hookQueryToken_rejected (r : HookReqModel) (t : FailTable) (now : Int)
    (hcfg : r.hasConfig = true) (hpath : r.pathInBase = true)
    (hq : r.queryHasToken = true) :
    (∀ b : Bool, hooksHandle { r with tokenMatches := b } t now =
      (true, [HEvent.respond 400 none (some hookQueryTokenMessage)], t)) ∧
    (∃ pre post : String,
      hookQueryTokenMessage = pre ++ "Authorization" ++ post) ∧
    (∃ pre2 post2 : String,
      hookQueryTokenMessage = pre2 ++ "X-OpenClaw-Token" ++ post2) := by
  refine ⟨?_, ?_, ?_⟩
  · intro b
    simp [hooksHandle, hcfg, hpath, hq]
  · exact ⟨"Hook token must be provided via ",
      ": Bearer <token> or X-OpenClaw-Token header (query parameters are not allowed).",
      by decide⟩
  · exact ⟨"Hook token must be provided via Authorization: Bearer <token> or ",
      " header (query parameters are not allowed).",
      by decide⟩

/-- Witness for C6: a query-token request whose presented token is
actually correct is still rejected with 400 and no dispatch. -/
theorem hookQueryToken_rejected_witness :
    hooksHandle
        { hasConfig := true, pathInBase := true, queryHasToken := true,
          tokenMatches := true, remoteAddr := some "192.0.2.1",
          isPost := true, subPath := "wake", body := BodyOutcome.okBody,
          wakeNormOk := true, agentNormOk := true, agentAllowed := true,
          agentSessionOk := true, mappingsPresent := false,
          mapping := MappingOutcome.noMatch }
        [] 0 =
      (true, [HEvent.respond 400 none (some hookQueryTokenMessage)], []) :=
  (hookQueryToken_rejected
      { hasConfig := true, pathInBase := true, queryHasToken := true,
        tokenMatches := true, remoteAddr := some "192.0.2.1",
        isPost := true, subPath := "wake", body := BodyOutcome.okBody,
        wakeNormOk := true, agentNormOk := true, agentAllowed := true,
        agentSessionOk := true, mappingsPresent := false,
        mapping := MappingOutcome.noMatch }
      [] 0 rfl rfl rfl).1 true

/-- C10: every hook request whose socket has no remote address, or a
whitespace-only one, gets the literal client key `"unknown"`; all
such requests share one failure-table entry (two consecutive failures
from two different addressless sockets accumulate in the single
`"unknown"` entry), and a successful authentication by any of them
clears that shared entry. -/
theorem unknownClientKey_shared (ra1 ra2 : Option String)
    (h1 : ra1 = none ∨ ∃ s, ra1 = some s ∧ jsTrim s = "")
    (h2 : ra2 = none ∨ ∃ s, ra2 = some s ∧ jsTrim s = "") :
    (resolveHookClientKey ra1 = "unknown" ∧ resolveHookClientKey ra2 = "unknown") ∧
    (∀ now1 now2 : Int, now2 - now1 < hookAuthFailureWindowMs →
      tableGet ((recordHookAuthFailure
          ((recordHookAuthFailure [] (resolveHookClientKey ra1) now1).1)
          (resolveHookClientKey ra2) now2).1) "unknown" =
        some { count := 2, windowStartedAtMs := now1 }) ∧
    (∀ t : FailTable,
      tableGet (clearHookAuthFailure t (resolveHookClientKey ra1)) "unknown" = none) := by
  have k1 : resolveHookClientKey ra1 = "unknown" := by
    rcases h1 with h | ⟨s, hs, htr⟩
    · rw [h]; rfl
    · rw [hs]; simp [resolveHookClientKey, htr]
  have k2 : resolveHookClientKey ra2 = "unknown" := by
    rcases h2 with h | ⟨s, hs, htr⟩
    · rw [h]; rfl
    · rw [hs]; simp [resolveHookClientKey, htr]
  refine ⟨⟨k1, k2⟩, ?_, ?_⟩
  · intro now1 now2 hwin
    rw [k1, k2]
    obtain ⟨_, hget1⟩ := record_fresh [] "unknown" now1 (by rfl)
    obtain ⟨hget2, _⟩ := record_hit
      ((recordHookAuthFailure [] "unknown" now1).1) "unknown" now2 1 now1 hget1 hwin
    exact hget2
  · intro t
    rw [k1]
    exact tableGet_delete t "unknown"

/-- Witness for C10: a socket with no remote address and a socket with
a whitespace-only remote address share the `"unknown"` entry. -/
theorem unknownClientKey_shared_witness :
    (resolveHookClientKey none = "unknown" ∧
      resolveHookClientKey (some " ") = "unknown") ∧
    tableGet ((recordHookAuthFailure
        ((recordHookAuthFailure [] (resolveHookClientKey none) 0).1)
        (resolveHookClientKey (some " ")) 100).1) "unknown" =
      some { count := 2, windowStartedAtMs := 0 } ∧
    tableGet (clearHookAuthFailure
        [("unknown", { count := 5, windowStartedAtMs := 3 })]
        (resolveHookClientKey none)) "unknown" = none := by
  obtain ⟨hk, hshared, hclear⟩ :=
    unknownClientKey_shared none (some " ")
      (Or.inl rfl) (Or.inr ⟨" ", rfl, by decide⟩)
  exact ⟨hk, hshared 0 100 (by decide),
    hclear [("unknown", { count := 5, windowStartedAtMs := 3 })]⟩

/-- C4 counterexample: on an explicit mapping drop the handler sends
204 — a 2xx status — without any dispatch call, so "any 2xx response
is sent only after a dispatch call" is false as stated. -/
theorem hooks2xx_claim_counterexample :
    (hooksHandle dropHookRequest [] 0).2.1 = [HEvent.respond 204 none none] ∧
    (200 ≤ 204 ∧ 204 < 300) ∧
    hasDispatchEvent (hooksHandle dropHookRequest [] 0).2.1 = false ∧
    dispatch2xxStrict false (hooksHandle dropHookRequest [] 0).2.1 = false := by
  decide

/-- C4 (amended): in every hooks-handler trace, any 2xx response
other than the dispatch-free 204 of an explicit mapping drop is
preceded by a completed dispatch call, and any trace containing a
4xx response contains no dispatch call at all. -/
theorem hooks_dispatch_invariant (r : HookReqModel) (t : FailTable) (now : Int) :
    dispatch2xxExcept204 false (hooksHandle r t now).2.1 = true ∧
    (has4xxRespond (hooksHandle r t now).2.1 = true →
      hasDispatchEvent (hooksHandle r t now).2.1 = false) := by
  by_cases h1 : r.hasConfig = false
  · simp [hooksHandle, h1, dispatch2xxExcept204, has4xxRespond, hasDispatchEvent]
  · by_cases h2 : r.pathInBase = false
    · simp [hooksHandle, h1, h2, dispatch2xxExcept204, has4xxRespond, hasDispatchEvent]
    · by_cases h3 : r.queryHasToken = true
      · simp [hooksHandle, h1, h2, h3, dispatch2xxExcept204, has4xxRespond, hasDispatchEvent]
      · by_cases h4 : r.tokenMatches = false
        · by_cases h5 : (recordHookAuthFailure t (resolveHookClientKey r.remoteAddr) now).2.throttled = true <;>
            simp [hooksHandle, h1, h2, h3, h4, h5, dispatch2xxExcept204, has4xxRespond,
              hasDispatchEvent]
        · by_cases h6 : r.isPost = false
          · simp [hooksHandle, h1, h2, h3, h4, h6, dispatch2xxExcept204, has4xxRespond,
              hasDispatchEvent]
          · by_cases h7 : r.subPath = ""
            · simp [hooksHandle, h1, h2, h3, h4, h6, h7, dispatch2xxExcept204, has4xxRespond,
                hasDispatchEvent]
            · cases hb : r.body <;>
                [skip;
                 simp [hooksHandle, h1, h2, h3, h4, h6, h7, hb, dispatch2xxExcept204,
                   has4xxRespond, hasDispatchEvent];
                 simp [hooksHandle, h1, h2, h3, h4, h6, h7, hb, dispatch2xxExcept204,
                   has4xxRespond, hasDispatchEvent];
                 simp [hooksHandle, h1, h2, h3, h4, h6, h7, hb, dispatch2xxExcept204,
                   has4xxRespond, hasDispatchEvent]]
              by_cases h8 : r.subPath = "wake"
              · by_cases h9 : r.wakeNormOk = true <;>
                  simp [hooksHandle, h1, h2, h3, h4, h6, h7, hb, h8, h9, dispatch2xxExcept204,
                    has4xxRespond, hasDispatchEvent]
              · by_cases h10 : r.subPath = "agent"
                · by_cases h11 : r.agentNormOk = false
                  · simp [hooksHandle, h1, h2, h3, h4, h6, h7, hb, h8, h10, h11,
                      dispatch2xxExcept204, has4xxRespond, hasDispatchEvent]
                  · by_cases h12 : r.agentAllowed = false
                    · simp [hooksHandle, h1, h2, h3, h4, h6, h7, hb, h8, h10, h11, h12,
                        dispatch2xxExcept204, has4xxRespond, hasDispatchEvent]
                    · by_cases h13 : r.agentSessionOk = false <;>
                        simp [hooksHandle, h1, h2, h3, h4, h6, h7, hb, h8, h10, h11, h12, h13,
                          dispatch2xxExcept204, has4xxRespond, hasDispatchEvent]
                · by_cases h14 : r.mappingsPresent = true
                  · cases hm : r.mapping <;>
                      [skip; skip; skip; skip; skip;
                       (rename_i ch alw se;
                        cases ch <;> cases alw <;> cases se <;>
                          simp [hooksHandle, h1, h2, h3, h4, h6, h7, hb, h8, h10, h14, hm,
                            dispatch2xxExcept204, has4xxRespond, hasDispatchEvent])] <;>
                      simp [hooksHandle, h1, h2, h3, h4, h6, h7, hb, h8, h10, h14, hm,
                        dispatch2xxExcept204, has4xxRespond, hasDispatchEvent]
                  · simp [hooksHandle, h1, h2, h3, h4, h6, h7, hb, h8, h10, h14,
                      dispatch2xxExcept204, has4xxRespond, hasDispatchEvent]

/-- Witness for C4 (amended) at a concrete 4xx-producing request. -/
theorem hooks_dispatch_invariant_witness :
    has4xxRespond (hooksHandle
        { dropHookRequest with isPost := false } [] 0).2.1 = true ∧
    hasDispatchEvent (hooksHandle
        { dropHookRequest with isPost := false } [] 0).2.1 = false :=
  ⟨by decide,
   (hooks_dispatch_invariant { dropHookRequest with isPost := false } [] 0).2
     (by decide)⟩

/-! ### Framebuffer proxy lemmas -/

theorem boolNotAnd {a b : Bool} (h : ¬(a = true ∧ b = false)) :
    a = false ∨ b = true := by
  cases a <;> cases b <;> simp_all

theorem notAndLtTwo {a : Bool} {n : Nat} (h : ¬(a = true ∧ n < 2)) :
    a = false ∨ 2 ≤ n := by
  cases a
  · exact Or.inl rfl
  · right
    by_contra hlt
    push_neg at hlt
    exact h ⟨rfl, hlt⟩

theorem vncCleanup_torn (s : VncState) : vncTorn (vncCleanup s) := by
  unfold vncCleanup vncDestroyStep vncCloseStep vncTorn
  by_cases hd : s.upstreamPresent = true ∧ s.destroyed = false
  · rw [if_pos hd]
    dsimp only
    by_cases hc : s.wsOpen = true ∧ s.readyState < 2
    · rw [if_pos hc]
      exact ⟨Or.inr rfl, Or.inl rfl⟩
    · rw [if_neg hc]
      exact ⟨Or.inr rfl, notAndLtTwo hc⟩
  · rw [if_neg hd]
    by_cases hc : s.wsOpen = true ∧ s.readyState < 2
    · rw [if_pos hc]
      exact ⟨boolNotAnd hd, Or.inl rfl⟩
    · rw [if_neg hc]
      exact ⟨boolNotAnd hd, notAndLtTwo hc⟩

theorem vncTorn_not_guards {s : VncState} (h : vncTorn s) :
    ¬(s.upstreamPresent = true ∧ s.destroyed = false) ∧
    ¬(s.wsOpen = true ∧ s.readyState < 2) ∧
    ¬(s.wsOpen = true ∧ s.readyState = 1) := by
  obtain ⟨h1, h2⟩ := h
  refine ⟨?_, ?_, ?_⟩
  · rintro ⟨ha, hb⟩
    rcases h1 with h1 | h1
    · rw [ha] at h1; exact Bool.noConfusion h1
    · rw [hb] at h1; exact Bool.noConfusion h1
  · rintro ⟨ha, hb⟩
    rcases h2 with h2 | h2
    · rw [ha] at h2; exact Bool.noConfusion h2
    · omega
  · rintro ⟨ha, hb⟩
    rcases h2 with h2 | h2
    · rw [ha] at h2; exact Bool.noConfusion h2
    · omega

theorem vncCleanup_of_torn {s : VncState} (h : vncTorn s) : vncCleanup s = s := by
  obtain ⟨hup, hcs, _⟩ := vncTorn_not_guards h
  unfold vncCleanup vncDestroyStep vncCloseStep
  rw [if_neg hup, if_neg hcs]

theorem vncRun_append (a b : List VncEv) : ∀ s : VncState,
    vncRun s (a ++ b) = vncRun (vncRun s a) b := by
  induction a with
  | nil => intro s; rfl
  | cons e es ih => intro s; exact ih (vncStep s e)

/-- After teardown, every further event leaves the torn state torn
and writes nothing to either side. -/
theorem vncTorn_step (s : VncState) (e : VncEv) (h : vncTorn s) :
    vncTorn (vncStep s e) ∧
    (vncStep s e).upWrites = s.upWrites ∧ (vncStep s e).wsSends = s.wsSends := by
  obtain ⟨hup, hcs, hws⟩ := vncTorn_not_guards h
  obtain ⟨h1, h2⟩ := h
  cases e with
  | upData b f =>
    simp only [vncStep]
    rw [if_neg hws]
    exact ⟨⟨h1, h2⟩, rfl, rfl⟩
  | upClose =>
    have htm : vncTorn { s with destroyed := true } := ⟨Or.inr rfl, h2⟩
    have hm : vncStep s VncEv.upClose = { s with destroyed := true } := by
      show vncCleanup { s with destroyed := true } = _
      exact vncCleanup_of_torn htm
    rw [hm]
    exact ⟨htm, rfl, rfl⟩
  | upErr =>
    simp only [vncStep]
    rw [vncCleanup_of_torn ⟨h1, h2⟩]
    exact ⟨⟨h1, h2⟩, rfl, rfl⟩
  | wsMsg d f =>
    simp only [vncStep]
    rw [if_neg hup]
    exact ⟨⟨h1, h2⟩, rfl, rfl⟩
  | wsCloseEv =>
    have htm : vncTorn { s with wsOpen := false } := ⟨h1, Or.inl rfl⟩
    have hm : vncStep s VncEv.wsCloseEv = { s with wsOpen := false } := by
      show vncCleanup { s with wsOpen := false } = _
      exact vncCleanup_of_torn htm
    rw [hm]
    exact ⟨htm, rfl, rfl⟩
  | wsErr =>
    simp only [vncStep]
    rw [vncCleanup_of_torn ⟨h1, h2⟩]
    exact ⟨⟨h1, h2⟩, rfl, rfl⟩

/-- A torn state stays torn and write-frozen over any event run. -/
theorem vncTorn_run_freeze (more : List VncEv) : ∀ s : VncState, vncTorn s →
    vncTorn (vncRun s more) ∧
    (vncRun s more).upWrites = s.upWrites ∧
    (vncRun s more).wsSends = s.wsSends := by
  induction more with
  | nil => intro s h; exact ⟨h, rfl, rfl⟩
  | cons e es ih =>
    intro s h
    obtain ⟨ht, hu, hw⟩ := vncTorn_step s e h
    obtain ⟨ht', hu', hw'⟩ := ih (vncStep s e) ht
    refine ⟨ht', ?_, ?_⟩
    · show (vncRun (vncStep s e) es).upWrites = s.upWrites
      rw [hu', hu]
    · show (vncRun (vncStep s e) es).wsSends = s.wsSends
      rw [hw', hw]

theorem vncCallInv_cleanup {s : VncState} (h : vncCallInv s) :
    vncCallInv (vncCleanup s) := by
  obtain ⟨⟨hd1, hd2⟩, ⟨hc1, hc2⟩⟩ := h
  unfold vncCleanup vncDestroyStep vncCloseStep vncCallInv
  by_cases hd : s.upstreamPresent = true ∧ s.destroyed = false
  · rw [if_pos hd]
    dsimp only
    have hdz : s.destroyCalls = 0 := by
      by_contra hnz
      have := hd2 (by omega)
      rw [this] at hd
      exact Bool.noConfusion hd.2
    by_cases hc : s.wsOpen = true ∧ s.readyState < 2
    · rw [if_pos hc]
      have hcz : s.closeCalls = 0 := by
        by_contra hnz
        have := hc2 (by omega)
        rw [this] at hc
        exact Bool.noConfusion hc.1
      exact ⟨⟨by dsimp only; omega, fun _ => rfl⟩, ⟨by dsimp only; omega, fun _ => rfl⟩⟩
    · rw [if_neg hc]
      exact ⟨⟨by dsimp only; omega, fun _ => rfl⟩, ⟨by dsimp only; omega, by dsimp only; exact hc2⟩⟩
  · rw [if_neg hd]
    by_cases hc : s.wsOpen = true ∧ s.readyState < 2
    · rw [if_pos hc]
      have hcz : s.closeCalls = 0 := by
        by_contra hnz
        have := hc2 (by omega)
        rw [this] at hc
        exact Bool.noConfusion hc.1
      exact ⟨⟨by dsimp only; omega, by dsimp only; exact hd2⟩, ⟨by dsimp only; omega, fun _ => rfl⟩⟩
    · rw [if_neg hc]
      exact ⟨⟨hd1, hd2⟩, ⟨hc1, hc2⟩⟩

theorem vncCallInv_step (s : VncState) (e : VncEv) (h : vncCallInv s) :
    vncCallInv (vncStep s e) := by
  obtain ⟨⟨hd1, hd2⟩, ⟨hc1, hc2⟩⟩ := h
  cases e with
  | upData b f =>
    simp only [vncStep]
    by_cases hg : s.wsOpen = true ∧ s.readyState = 1
    · rw [if_pos hg]
      cases f
      · exact ⟨⟨hd1, hd2⟩, ⟨hc1, hc2⟩⟩
      · exact vncCallInv_cleanup ⟨⟨hd1, hd2⟩, ⟨hc1, hc2⟩⟩
    · rw [if_neg hg]
      exact ⟨⟨hd1, hd2⟩, ⟨hc1, hc2⟩⟩
  | upClose =>
    exact vncCallInv_cleanup ⟨⟨hd1, fun h => rfl⟩, ⟨hc1, hc2⟩⟩
  | upErr =>
    exact vncCallInv_cleanup ⟨⟨hd1, hd2⟩, ⟨hc1, hc2⟩⟩
  | wsMsg d f =>
    simp only [vncStep]
    by_cases hg : s.upstreamPresent = true ∧ s.destroyed = false
    · rw [if_pos hg]
      cases f
      · exact ⟨⟨hd1, hd2⟩, ⟨hc1, hc2⟩⟩
      · exact vncCallInv_cleanup ⟨⟨hd1, hd2⟩, ⟨hc1, hc2⟩⟩
    · rw [if_neg hg]
      exact ⟨⟨hd1, hd2⟩, ⟨hc1, hc2⟩⟩
  | wsCloseEv =>
    exact vncCallInv_cleanup ⟨⟨hd1, hd2⟩, ⟨hc1, fun h => rfl⟩⟩
  | wsErr =>
    exact vncCallInv_cleanup ⟨⟨hd1, hd2⟩, ⟨hc1, hc2⟩⟩

theorem vncCallInv_run (evs : List VncEv) : ∀ s : VncState, vncCallInv s →
    vncCallInv (vncRun s evs) := by
  induction evs with
  | nil => intro s h; exact h
  | cons e es ih => intro s h; exact ih (vncStep s e) (vncCallInv_step s e h)

/-- C7: (a) `cleanup` is idempotent; (b) over any event sequence at
most one effective `destroy()` and at most one effective `close()`
ever happen; (c) every close or error event on either side leaves
the session torn down on both sides; (d) after a close or error
event, no further byte is written to either side, whatever events
follow. -/
theorem vncProxy_symmetric_teardown :
    (∀ s : VncState, vncCleanup (vncCleanup s) = vncCleanup s) ∧
    (∀ evs : List VncEv,
      (vncRun initVncState evs).destroyCalls ≤ 1 ∧
      (vncRun initVncState evs).closeCalls ≤ 1) ∧
    (∀ (s : VncState) (e : VncEv), isCloseOrErrEv e = true → vncTorn (vncStep s e)) ∧
    (∀ (pre more : List VncEv) (e : VncEv), isCloseOrErrEv e = true →
      (vncRun initVncState (pre ++ e :: more)).upWrites =
        (vncStep (vncRun initVncState pre) e).upWrites ∧
      (vncRun initVncState (pre ++ e :: more)).wsSends =
        (vncStep (vncRun initVncState pre) e).wsSends) := by
  have hstep_torn : ∀ (s : VncState) (e : VncEv), isCloseOrErrEv e = true →
      vncTorn (vncStep s e) := by
    intro s e he
    cases e with
    | upData b f => exact Bool.noConfusion he
    | upClose => exact vncCleanup_torn _
    | upErr => exact vncCleanup_torn _
    | wsMsg d f => exact Bool.noConfusion he
    | wsCloseEv => exact vncCleanup_torn _
    | wsErr => exact vncCleanup_torn _
  refine ⟨?_, ?_, hstep_torn, ?_⟩
  · intro s
    exact vncCleanup_of_torn (vncCleanup_torn s)
  · intro evs
    have h := vncCallInv_run evs initVncState
      ⟨⟨by simp [initVncState], by intro h; simp [initVncState] at h⟩,
       ⟨by simp [initVncState], by intro h; simp [initVncState] at h⟩⟩
    exact ⟨h.1.1, h.2.1⟩
  · intro pre more e he
    have hrw : vncRun initVncState (pre ++ e :: more) =
        vncRun (vncStep (vncRun initVncState pre) e) more := by
      rw [vncRun_append]
      rfl
    have ht := hstep_torn (vncRun initVncState pre) e he
    obtain ⟨_, hu, hw⟩ := vncTorn_run_freeze more _ ht
    rw [hrw]
    exact ⟨hu, hw⟩

/-- Witness for C7: a concrete session where the upstream socket
errors, the WebSocket later reports close, and a further message
arrives: one destroy, one close, no write after the error. -/
theorem vncProxy_symmetric_teardown_witness :
    (vncRun initVncState
        [VncEv.upData [7] false, VncEv.upErr, VncEv.wsCloseEv,
         VncEv.wsMsg (WsPayload.buf [1]) false]).destroyCalls ≤ 1 ∧
    vncTorn (vncStep initVncState VncEv.upErr) ∧
    (vncRun initVncState
        ([VncEv.upData [7] false] ++ VncEv.upErr ::
          [VncEv.wsMsg (WsPayload.buf [1]) false])).upWrites =
      (vncStep (vncRun initVncState [VncEv.upData [7] false]) VncEv.upErr).upWrites :=
  ⟨(vncProxy_symmetric_teardown.2.1
      [VncEv.upData [7] false, VncEv.upErr, VncEv.wsCloseEv,
       VncEv.wsMsg (WsPayload.buf [1]) false]).1,
   vncProxy_symmetric_teardown.2.2.1 initVncState VncEv.upErr rfl,
   (vncProxy_symmetric_teardown.2.2.2
      [VncEv.upData [7] false] [VncEv.wsMsg (WsPayload.buf [1]) false]
      VncEv.upErr rfl).1⟩

/-- C8: every WebSocket payload variant is coalesced into one
contiguous byte buffer — a `Buffer` and an `ArrayBuffer` keep their
bytes, an array of buffers is concatenated in order, and any other
value contributes the UTF-8 bytes of its string form — and bytes are
forwarded unmodified in both directions: with the upstream socket
alive a message appends exactly its coalesced bytes to the upstream
writes, and with the WebSocket open an upstream chunk is sent to the
client unchanged as one binary frame. -/
theorem vncProxy_bytes_faithful :
    (∀ b : List Nat, coalesceWsPayload (WsPayload.buf b) = b) ∧
    (∀ b : List Nat, coalesceWsPayload (WsPayload.arrayBuf b) = b) ∧
    (∀ ps : List (List Nat), coalesceWsPayload (WsPayload.bufList ps) = ps.flatten) ∧
    (∀ s : String, coalesceWsPayload (WsPayload.str s) = utf8Bytes s) ∧
    (∀ (st : VncState) (d : WsPayload),
      st.upstreamPresent = true → st.destroyed = false →
      (vncStep st (VncEv.wsMsg d false)).upWrites =
        st.upWrites ++ [coalesceWsPayload d] ∧
      (vncStep st (VncEv.wsMsg d false)).wsSends = st.wsSends) ∧
    (∀ (st : VncState) (b : List Nat),
      st.wsOpen = true → st.readyState = 1 →
      (vncStep st (VncEv.upData b false)).wsSends = st.wsSends ++ [b] ∧
      (vncStep st (VncEv.upData b false)).upWrites = st.upWrites) := by
  refine ⟨fun b => rfl, fun b => rfl, fun ps => rfl, fun s => rfl, ?_, ?_⟩
  · intro st d hu hd
    simp only [vncStep]
    rw [if_pos ⟨hu, hd⟩]
    exact ⟨rfl, rfl⟩
  · intro st b hw hr
    simp only [vncStep]
    rw [if_pos ⟨hw, hr⟩]
    exact ⟨rfl, rfl⟩

/-- Witness for C8: the client sends `[01] [02 03]` as an array of
binary buffers, the upstream receives exactly `01 02 03`; the
upstream sends `FF`, the client receives exactly `FF`. -/
theorem vncProxy_bytes_faithful_witness :
    (vncStep initVncState
        (VncEv.wsMsg (WsPayload.bufList [[1], [2, 3]]) false)).upWrites = [[1, 2, 3]] ∧
    (vncStep initVncState (VncEv.upData [255] false)).wsSends = [[255]] := by
  constructor
  · rw [(vncProxy_bytes_faithful.2.2.2.2.1 initVncState
      (WsPayload.bufList [[1], [2, 3]]) rfl rfl).1]
    rfl
  · rw [(vncProxy_bytes_faithful.2.2.2.2.2 initVncState [255] rfl rfl).1]
    rfl

/-! ### Supervisor lemmas -/

theorem scheduleRestart_nodup {s : SupState} (k : ProcKind)
    (h : s.tracked.Nodup) : (scheduleRestart s k).tracked.Nodup := by
  unfold scheduleRestart
  by_cases h1 : s.stopping = true
  · rw [if_pos h1]; exact h
  · rw [if_neg h1]
    by_cases h2 : k ∈ s.tracked
    · rw [if_pos h2]; exact h
    · rw [if_neg h2]
      exact List.nodup_cons.mpr ⟨h2, h⟩

theorem supStep_nodup (s : SupState) (e : SupEv)
    (h : s.tracked.Nodup) : (supStep s e).tracked.Nodup := by
  cases e with
  | exitEv k =>
    simp only [supStep]
    by_cases h1 : s.stopping = true
    · rw [if_pos h1]; exact h
    · rw [if_neg h1]; exact scheduleRestart_nodup k h
  | errEv k => exact scheduleRestart_nodup k h
  | fireTimer k =>
    simp only [supStep]
    by_cases h1 : k ∈ s.tracked
    · rw [if_pos h1]
      by_cases h2 : s.stopping = true
      · rw [if_pos h2]; exact h.erase k
      · rw [if_neg h2]
        by_cases h3 : k = ProcKind.xvfb
        · rw [if_pos h3]; exact h.erase k
        · rw [if_neg h3]; exact h.erase k
    · rw [if_neg h1]; exact h
  | fireInner =>
    simp only [supStep]
    by_cases h1 : 0 < s.innerPending
    · rw [if_pos h1]
      by_cases h2 : s.stopping = true
      · rw [if_pos h2]; exact h
      · rw [if_neg h2]; exact h
    · rw [if_neg h1]; exact h
  | stopEv => exact List.nodup_nil
  | startEv => exact h

theorem supRun_nodup (evs : List SupEv) : ∀ s : SupState,
    s.tracked.Nodup → (supRun s evs).tracked.Nodup := by
  induction evs with
  | nil => intro s h; exact h
  | cons e es ih => intro s h; exact ih (supStep s e) (supStep_nodup s e h)

/-- While `stopping` holds with an empty schedule, any event other
than `start()` keeps the schedule empty and performs no restart. -/
theorem supStopped_step (s : SupState) (e : SupEv)
    (hs : s.stopping = true) (ht : s.tracked = []) (hne : e ≠ SupEv.startEv) :
    (supStep s e).stopping = true ∧ (supStep s e).tracked = [] ∧
    (supStep s e).restartsDone = s.restartsDone := by
  cases e with
  | exitEv k =>
    simp only [supStep]
    rw [if_pos hs]
    exact ⟨hs, ht, rfl⟩
  | errEv k =>
    simp only [supStep, scheduleRestart]
    rw [if_pos hs]
    exact ⟨hs, ht, rfl⟩
  | fireTimer k =>
    simp only [supStep]
    rw [if_neg (by rw [ht]; simp)]
    exact ⟨hs, ht, rfl⟩
  | fireInner =>
    simp only [supStep]
    by_cases h1 : 0 < s.innerPending
    · rw [if_pos h1, if_pos hs]
      exact ⟨hs, ht, rfl⟩
    · rw [if_neg h1]
      exact ⟨hs, ht, rfl⟩
  | stopEv => exact ⟨rfl, rfl, rfl⟩
  | startEv => exact absurd rfl hne

theorem supStopped_run (more : List SupEv) : ∀ s : SupState,
    s.stopping = true → s.tracked = [] → SupEv.startEv ∉ more →
    (supRun s more).tracked = [] ∧
    (supRun s more).restartsDone = s.restartsDone := by
  induction more with
  | nil => intro s _ ht _; exact ⟨ht, rfl⟩
  | cons e es ih =>
    intro s hs ht hmem
    have hne : e ≠ SupEv.startEv := fun h => hmem (by rw [h]; exact List.mem_cons_self _ _)
    obtain ⟨hs', ht', hr'⟩ := supStopped_step s e hs ht hne
    obtain ⟨ht'', hr''⟩ := ih (supStep s e) hs' ht'
      (fun h => hmem (List.mem_cons_of_mem _ h))
    refine ⟨ht'', ?_⟩
    show (supRun (supStep s e) es).restartsDone = s.restartsDone
    rw [hr'', hr']

/-- C9: (a) at every reachable supervisor state at most one pending
restart timer exists per process kind; (b) `stop()` clears the whole
restart schedule; (c) after `stop()`, as long as no `start()`
happens, the schedule stays empty and no restart is ever performed —
including by an already-armed 2 s follow-up timer, whose callback
re-checks the `stopping` flag. -/
theorem supervisor_restart_schedule (evs : List SupEv) :
    (∀ k : ProcKind, (supRun supInit evs).tracked.count k ≤ 1) ∧
    ((supStep (supRun supInit evs) SupEv.stopEv).tracked = []) ∧
    (∀ more : List SupEv, SupEv.startEv ∉ more →
      (supRun (supStep (supRun supInit evs) SupEv.stopEv) more).tracked = [] ∧
      (supRun (supStep (supRun supInit evs) SupEv.stopEv) more).restartsDone =
        (supStep (supRun supInit evs) SupEv.stopEv).restartsDone) := by
  refine ⟨?_, rfl, ?_⟩
  · intro k
    have h := supRun_nodup evs supInit List.nodup_nil
    exact List.nodup_iff_count_le_one.mp h k
  · intro more hmem
    exact supStopped_run more _ rfl rfl hmem

/-- Witness for C9: a crash of both children, `stop()`, then a timer
callback, the follow-up timer and one more exit — schedule stays
empty, no restart happens. -/
theorem supervisor_restart_schedule_witness :
    ((supRun supInit [SupEv.exitEv ProcKind.xvfb,
        SupEv.errEv ProcKind.x11vnc]).tracked.count ProcKind.x11vnc ≤ 1) ∧
    (supRun (supStep (supRun supInit [SupEv.exitEv ProcKind.xvfb,
        SupEv.errEv ProcKind.x11vnc]) SupEv.stopEv)
      [SupEv.fireTimer ProcKind.xvfb, SupEv.fireInner,
       SupEv.exitEv ProcKind.x11vnc]).tracked = [] ∧
    (supRun (supStep (supRun supInit [SupEv.exitEv ProcKind.xvfb,
        SupEv.errEv ProcKind.x11vnc]) SupEv.stopEv)
      [SupEv.fireTimer ProcKind.xvfb, SupEv.fireInner,
       SupEv.exitEv ProcKind.x11vnc]).restartsDone =
      (supStep (supRun supInit [SupEv.exitEv ProcKind.xvfb,
        SupEv.errEv ProcKind.x11vnc]) SupEv.stopEv).restartsDone := by
  obtain ⟨hcount, _, hstopped⟩ :=
    supervisor_restart_schedule [SupEv.exitEv ProcKind.xvfb, SupEv.errEv ProcKind.x11vnc]
  obtain ⟨ht, hr⟩ := hstopped
    [SupEv.fireTimer ProcKind.xvfb, SupEv.fireInner, SupEv.exitEv ProcKind.x11vnc]
    (by decide)
  exact ⟨hcount ProcKind.x11vnc, ht, hr⟩

end OpenClaw
